import Mathlib

/-!
Verification development for the article persistence layer of the
realworld-backend repository.

The Go code in `internal/data/articles.go` operates on a PostgreSQL
database.  We embed it shallowly: the database is an explicit `DB` value
(lists of rows for the `articles`, `users`, `favorites`, `follows` and
`tags` relations), every store operation becomes a pure function from the
pre-state to the post-state together with the value/error the Go function
returns, and the SQL statements the code issues are translated clause by
clause.  Machine integers become `Int` (no overflow is relevant at the
sizes involved), timestamps become `Int`, and `NOW()` becomes an explicit
`now` argument.
-/

namespace RealWorld

/-- One row of the `articles` relation; mirrors the scanned columns of the
Go `Article` struct (`internal/data/articles.go`). -/
structure Article where
  id : Int
  slug : String
  title : String
  description : String
  body : String
  tagList : List String
  createdAt : Int
  updatedAt : Int
  favoritesCount : Int
  authorId : Int
  version : Int
deriving DecidableEq

/-- One row of the `users` relation (the columns the article queries join
against: `u.id, u.username, u.bio, u.image`). -/
structure UserRow where
  id : Int
  username : String
  bio : String
  image : String
deriving DecidableEq

/-- The author projection returned with an article (`Profile` in
`internal/data/users.go`). -/
structure Profile where
  username : String
  bio : String
  image : String
  following : Bool
deriving DecidableEq

/-- The database state: the five relations the article store touches.
`favorites` holds `(user_id, article_id)` pairs (composite primary key),
`follows` holds `(follower_id, followed_id)` pairs. -/
structure DB where
  articles : List Article
  users : List UserRow
  favorites : List (Int × Int)
  follows : List (Int × Int)
  tags : List String
deriving DecidableEq

/-- The error values of `internal/data` that the claims mention:
`ErrRecordNotFound` and `ErrEditConflict`. -/
inductive Err where
  | recordNotFound
  | editConflict
deriving DecidableEq

/-- An article as returned to the caller: the row columns plus the
viewer-scoped `favorited` flag and the author profile (Go fills these into
the same `Article` struct; we separate the stored row from the returned
value). -/
structure ArticleOut where
  id : Int
  slug : String
  title : String
  description : String
  body : String
  tagList : List String
  createdAt : Int
  updatedAt : Int
  favoritesCount : Int
  authorId : Int
  version : Int
  favorited : Bool
  author : Profile
deriving DecidableEq

/-- Assemble the returned article from a stored row, its author row and the
viewer-scoped flags (the final `SELECT` of the favorite/unfavorite CTE
queries). -/
def outOf (a : Article) (u : UserRow) (favorited following : Bool) : ArticleOut :=
  { id := a.id, slug := a.slug, title := a.title, description := a.description,
    body := a.body, tagList := a.tagList, createdAt := a.createdAt,
    updatedAt := a.updatedAt, favoritesCount := a.favoritesCount,
    authorId := a.authorId, version := a.version, favorited := favorited,
    author := { username := u.username, bio := u.bio, image := u.image,
                following := following } }

/-- The row update of the `update_count` CTE in `FavoriteBySlug`:
`SET favorites_count = favorites_count + 1 WHERE a.id = fi.article_id`. -/
def bumpFav (aid : Int) (x : Article) : Article :=
  if x.id = aid then { x with favoritesCount := x.favoritesCount + 1 } else x

/-- The row update of the `update_count` CTE in `UnfavoriteBySlug`:
`SET favorites_count = GREATEST(favorites_count - 1, 0)`. -/
def dropFav (aid : Int) (x : Article) : Article :=
  if x.id = aid then { x with favoritesCount := max (x.favoritesCount - 1) 0 } else x

/-- Model of `ArticleStore.FavoriteBySlug` (`internal/data/articles.go:240`).
Single CTE statement: look the article up by slug; `INSERT ... ON CONFLICT
(user_id, article_id) DO NOTHING` the favorite edge; add 1 to
`favorites_count` only when the insert returned a row; read the full row
back joined with its author, with `favorited = true` hardcoded and
`following = EXISTS(follows edge (viewer, author))`.  No matching slug (or
no author row for the inner join) makes the final `SELECT` return nothing,
which Go maps to `ErrRecordNotFound`. -/
def FavoriteBySlug (db : DB) (slug : String) (userId : Int) :
    DB × Except Err ArticleOut :=
  match db.articles.find? (fun a => decide (a.slug = slug)) with
  | none => (db, .error .recordNotFound)
  | some a =>
    match db.users.find? (fun u => decide (u.id = a.authorId)) with
    | none => (db, .error .recordNotFound)
    | some u =>
      let following := decide ((userId, a.authorId) ∈ db.follows)
      if (userId, a.id) ∈ db.favorites then
        (db, .ok (outOf a u true following))
      else
        ({ db with
             favorites := (userId, a.id) :: db.favorites,
             articles := db.articles.map (bumpFav a.id) },
         .ok (outOf (bumpFav a.id a) u true following))

/-- Model of `ArticleStore.UnfavoriteBySlug` (`internal/data/articles.go:315`).
Single CTE statement: look the article up by slug; `DELETE` the favorite
edge if present; apply `GREATEST(favorites_count - 1, 0)` only when the
delete returned a row; read the row back with `favorited = false`. -/
def UnfavoriteBySlug (db : DB) (slug : String) (userId : Int) :
    DB × Except Err ArticleOut :=
  match db.articles.find? (fun a => decide (a.slug = slug)) with
  | none => (db, .error .recordNotFound)
  | some a =>
    match db.users.find? (fun u => decide (u.id = a.authorId)) with
    | none => (db, .error .recordNotFound)
    | some u =>
      let following := decide ((userId, a.authorId) ∈ db.follows)
      if (userId, a.id) ∈ db.favorites then
        ({ db with
             favorites := db.favorites.filter (fun p => decide (p ≠ (userId, a.id))),
             articles := db.articles.map (dropFav a.id) },
         .ok (outOf (dropFav a.id a) u false following))
      else
        (db, .ok (outOf a u false following))

/-- Model of `ArticleStore.InsertTags` (`internal/data/articles.go:447`):
`INSERT INTO tags ... ON CONFLICT (tag) DO NOTHING`. -/
def InsertTags (tags : List String) (new : List String) : List String :=
  new.foldl (fun acc t => if t ∈ acc then acc else acc ++ [t]) tags

/-- The per-row effect of `Update`'s SQL statement: rows whose
`(id, version)` matches the caller-supplied pair receive the new content,
a refreshed `updated_at` and `version = version + 1`; all other rows are
untouched. -/
def applyUpd (art : Article) (now : Int) (a : Article) : Article :=
  if a.id = art.id ∧ a.version = art.version then
    { a with title := art.title, description := art.description,
             body := art.body, slug := art.slug, updatedAt := now,
             version := a.version + 1 }
  else a

/-- Model of `ArticleStore.Update` (`internal/data/articles.go:409`).
`UPDATE articles SET title, description, body, slug, updated_at = now,
version = version + 1 WHERE id = $5 AND version = $6 RETURNING updated_at,
version`; `pgx.ErrNoRows` (no row matched the `(id, version)` pair) is
mapped to `ErrEditConflict`.  On success the non-empty tag list is
re-registered.  The returned pair is the scanned `(updated_at, version)`. -/
def Update (db : DB) (art : Article) (now : Int) :
    DB × Except Err (Int × Int) :=
  match db.articles.find? (fun a => decide (a.id = art.id ∧ a.version = art.version)) with
  | none => (db, .error .editConflict)
  | some _ =>
    ({ db with articles := db.articles.map (applyUpd art now),
               tags := if art.tagList = [] then db.tags
                       else InsertTags db.tags art.tagList },
     .ok (now, art.version + 1))

/-- Model of `ArticleStore.DeleteBySlug` (`internal/data/articles.go:388`).
`DELETE FROM articles WHERE slug = $1 AND author_id = $2`; zero affected
rows is mapped to `ErrRecordNotFound`.  The schema cascades the delete to
the `favorites` rows of the removed articles. -/
def DeleteBySlug (db : DB) (slug : String) (authorId : Int) :
    DB × Except Err Unit :=
  let deleted := db.articles.filter (fun a => decide (a.slug = slug ∧ a.authorId = authorId))
  if deleted.isEmpty then
    (db, .error .recordNotFound)
  else
    ({ db with
         articles := db.articles.filter
           (fun a => !decide (a.slug = slug ∧ a.authorId = authorId)),
         favorites := db.favorites.filter
           (fun p => !decide (p.2 ∈ deleted.map Article.id)) },
     .ok ())

/-- The current viewer handed to `List`: Go distinguishes a `nil`
pointer, the shared `AnonymousUser` sentinel (`IsAnonymous` is pointer
equality; its `ID` is the zero value `0`), and a real user. -/
inductive Viewer where
  | nil
  | anonymous
  | user (u : UserRow)
deriving DecidableEq

/-- The `userID` local of `ArticleStore.List`: `-1` unless
`currentUser != nil && !currentUser.IsAnonymous()`. -/
def Viewer.effectiveId : Viewer → Int
  | .user u => u.id
  | _ => -1

/-- Model of `ArticleFilters` (`internal/data/articles.go:462`); `limit`/`offset`
are validated and clamped to non-negative values by the caller. -/
structure ArticleFilters where
  tag : String
  author : String
  favorited : String
  feed : Bool
  limit : Nat
  offset : Nat
deriving DecidableEq

/-- The WHERE/JOIN conditions `List` composes, applied to one joined
(article, author) row: the feed inner join on `follows`, the
`? = ANY(a.tag_list)` tag filter, the `u.username = ?` author filter, and
the `EXISTS` subquery for the favorited-by-username filter. -/
def rowFilter (db : DB) (f : ArticleFilters) (userID : Int)
    (p : Article × UserRow) : Bool :=
  (!f.feed || decide ((userID, p.1.authorId) ∈ db.follows)) &&
  (f.tag == "" || decide (f.tag ∈ p.1.tagList)) &&
  (f.author == "" || p.2.username == f.author) &&
  (f.favorited == "" ||
    db.users.any (fun fu =>
      fu.username == f.favorited && decide ((fu.id, p.1.id) ∈ db.favorites)))

/-- The full set of rows produced by `List`'s query before `ORDER BY`,
`LIMIT` and `OFFSET`: `articles a JOIN users u ON a.author_id = u.id`
restricted by `rowFilter`.  (The two `LEFT JOIN`s against `favorites` and
`follows` never multiply rows — their join keys are primary keys — so they
surface only as the per-row flags in `mkOut`.) -/
def joinRows (db : DB) (f : ArticleFilters) (userID : Int) :
    List (Article × UserRow) :=
  (db.articles.flatMap (fun a =>
      (db.users.filter (fun u => decide (u.id = a.authorId))).map (fun u => (a, u)))).filter
    (rowFilter db f userID)

/-- Since `ORDER BY a.created_at DESC` is the only ordering clause `List` emits,
so the backend may return the matching rows in any order that is sorted by
`created_at` descending.  An admissible result sequence is a permutation
of the matching rows that is so sorted. -/
def Admissible (db : DB) (f : ArticleFilters) (userID : Int)
    (ord : List (Article × UserRow)) : Prop :=
  ord.Perm (joinRows db f userID) ∧
  ord.Sorted (fun p q => q.1.createdAt ≤ p.1.createdAt)

/-- Scan one joined row into the returned article (`List`'s row loop):
`favorited`/`following` come from the two outer joins keyed on the
effective `userID`; then `following` is forced to `false` when
`currentUser != nil && article.AuthorID == currentUser.ID` (the
`AnonymousUser` sentinel is non-nil with `ID = 0`).  `body` is not in the
select list, so it stays the zero value. -/
def mkOut (db : DB) (viewer : Viewer) (userID : Int)
    (p : Article × UserRow) : ArticleOut :=
  let favorited := decide ((userID, p.1.id) ∈ db.favorites)
  let joined := decide ((userID, p.1.authorId) ∈ db.follows)
  let following :=
    match viewer with
    | .nil => joined
    | .anonymous => if p.1.authorId = 0 then false else joined
    | .user u => if p.1.authorId = u.id then false else joined
  { id := p.1.id, slug := p.1.slug, title := p.1.title,
    description := p.1.description, body := "", tagList := p.1.tagList,
    createdAt := p.1.createdAt, updatedAt := p.1.updatedAt,
    favoritesCount := p.1.favoritesCount, authorId := p.1.authorId,
    version := p.1.version, favorited := favorited,
    author := { username := p.2.username, bio := p.2.bio, image := p.2.image,
                following := following } }

/-- What `ArticleStore.List` hands back: the page, the `totalCount` local
(scanned from the `COUNT(*) OVER()` column of each returned row, so it
stays `0` when no row is returned), and whether a query was issued at all
(the anonymous-feed branch returns before building one). -/
structure ListResult where
  articles : List ArticleOut
  totalCount : Nat
  queried : Bool
deriving DecidableEq

/-- Model of `ArticleStore.List` (`internal/data/articles.go:504`), parameterized
by the admissible row order `ord` the backend chose (see `Admissible`).
The anonymous-feed early return yields `([]Article{}, 0, nil)` without
touching the store; otherwise the page is `OFFSET`/`LIMIT` applied to
`ord`, each row scanned by `mkOut`, and `totalCount` is the window-function
count `ord.length` if at least one row was scanned, else the zero value. -/
def listArticles (db : DB) (f : ArticleFilters) (viewer : Viewer)
    (ord : List (Article × UserRow)) : ListResult :=
  let userID := viewer.effectiveId
  if f.feed ∧ userID = -1 then
    { articles := [], totalCount := 0, queried := false }
  else
    let page := (ord.drop f.offset).take f.limit
    let outs := page.map (mkOut db viewer userID)
    { articles := outs,
      totalCount := if outs.isEmpty then 0 else ord.length,
      queried := true }

/-! ## User cache (`UserCache` in the `data` package)

The Go `User` struct contains a `password` field whose `hash []byte` is a
slice: a header (pointer, length, capacity) into a mutable backing byte
array on the heap.  We model the heap of backing arrays explicitly and a
`GoUser` value as the struct's field values, the hash field being the
address of its backing array.  A Go struct assignment `userCopy := *user`
copies every field value — including the slice header, *not* the backing
array — which in this embedding is exactly the identity on `GoUser`.
String fields are immutable in Go, so they are plain values. -/

/-- The heap of `[]byte` backing arrays, by address. -/
def Heap : Type := Nat → List Nat

/-- Write one byte through a slice header: `b[i] = v`. -/
def Heap.writeByte (h : Heap) (addr i v : Nat) : Heap :=
  fun a => if a = addr then (h a).set i v else h a

/-- The `data.User` struct; `passwordHash` is the address of the
`Password.hash` backing array, `passwordPlaintext` the (immutable) pointee
of `Password.plaintext` when non-nil. -/
structure GoUser where
  id : Int
  username : String
  email : String
  passwordPlaintext : Option String
  passwordHash : Nat
  image : String
  bio : String
  token : String
  version : Int
deriving DecidableEq

/-- The bytes a user's password hash currently reads as. -/
def hashBytes (h : Heap) (u : GoUser) : List Nat :=
  h u.passwordHash

/-- The go-cache map inside `UserCache`, keyed by the formatted string. -/
def CacheState : Type := List (String × GoUser)

/-- Model of `UserCache.key`: `fmt.Sprintf("user:%d", userID)`. -/
def cacheKey (userID : Int) : String :=
  "user:" ++ toString userID

/-- Model of `UserCache.Set`: `userCopy := *user` (a struct
copy, the identity on the field values) is stored under the key,
replacing any previous entry. -/
def UserCacheSet (c : CacheState) (userID : Int) (user : GoUser) : CacheState :=
  (cacheKey userID, user) :: c.filter (fun kv => !(kv.1 == cacheKey userID))

/-- Model of `UserCache.Get`: on a hit, `userCopy := *user`
— again a struct copy of the cached entry — is returned. -/
def UserCacheGet (c : CacheState) (userID : Int) : Option GoUser :=
  (c.find? (fun kv => kv.1 == cacheKey userID)).map Prod.snd

/-! ## Invariants for the favorite counter (claim C1) -/

/-- The number of favorite edges referencing article `aid`. -/
def favCount (favs : List (Int × Int)) (aid : Int) : Nat :=
  (favs.filter (fun p => decide (p.2 = aid))).length

/-- The spec's counter invariant:
`favoritesCount == |{f : f.articleId == this.id}|` for every article. -/
def CounterInv (db : DB) : Prop :=
  ∀ a ∈ db.articles, a.favoritesCount = (favCount db.favorites a.id : Int)

/-- Well-formed favorite relation: the composite primary key
`(user_id, article_id)` makes the rows pairwise distinct. -/
def GoodState (db : DB) : Prop :=
  db.favorites.Nodup ∧ CounterInv db

/-- One toggle step of the favorite subsystem: the post-state of a
`FavoriteBySlug` or `UnfavoriteBySlug` call with arbitrary arguments. -/
inductive FavStep : DB → DB → Prop
  | fav (s : String) (u : Int) (db : DB) : FavStep db (FavoriteBySlug db s u).1
  | unfav (s : String) (u : Int) (db : DB) : FavStep db (UnfavoriteBySlug db s u).1

/-- States reachable through favorite/unfavorite operations. -/
inductive Reach : DB → DB → Prop
  | refl (db : DB) : Reach db db
  | step {d1 d2 d3 : DB} : Reach d1 d2 → FavStep d2 d3 → Reach d1 d3

/-! ## Helper lemmas -/

@[simp] theorem bumpFav_id (aid : Int) (x : Article) : (bumpFav aid x).id = x.id := by
  unfold bumpFav; split <;> rfl

@[simp] theorem bumpFav_slug (aid : Int) (x : Article) : (bumpFav aid x).slug = x.slug := by
  unfold bumpFav; split <;> rfl

@[simp] theorem bumpFav_authorId (aid : Int) (x : Article) :
    (bumpFav aid x).authorId = x.authorId := by
  unfold bumpFav; split <;> rfl

@[simp] theorem dropFav_id (aid : Int) (x : Article) : (dropFav aid x).id = x.id := by
  unfold dropFav; split <;> rfl

theorem favCount_cons (e : Int × Int) (l : List (Int × Int)) (i : Int) :
    favCount (e :: l) i = if e.2 = i then favCount l i + 1 else favCount l i := by
  by_cases h : e.2 = i <;> simp [favCount, List.filter_cons, h]

theorem favCount_pos (l : List (Int × Int)) (e : Int × Int) (i : Int)
    (he : e ∈ l) (hi : e.2 = i) : 1 ≤ favCount l i := by
  have hm : e ∈ l.filter (fun p => decide (p.2 = i)) :=
    List.mem_filter.mpr ⟨he, by simp [hi]⟩
  have := List.length_pos_of_mem hm
  simpa [favCount] using this

theorem favCount_filter_out (l : List (Int × Int)) (e : Int × Int) (i : Int)
    (hn : l.Nodup) (he : e ∈ l) :
    favCount (l.filter (fun p => decide (p ≠ e))) i =
      if e.2 = i then favCount l i - 1 else favCount l i := by
  induction l with
  | nil => cases he
  | cons x t ih =>
    rcases List.nodup_cons.mp hn with ⟨hxt, hnt⟩
    by_cases hxe : x = e
    · subst hxe
      have hrest : t.filter (fun p => !decide (p = x)) = t :=
        List.filter_eq_self.mpr (fun p hp => by
          simp only [Bool.not_eq_true', decide_eq_false_iff_not]
          exact fun h => hxt (h ▸ hp))
      by_cases hi : x.2 = i <;>
        simp [List.filter_cons, hrest, favCount_cons, hi]
    · have het : e ∈ t := by
        rcases List.mem_cons.mp he with h | h
        · exact absurd h.symm hxe
        · exact h
      have step : (x :: t).filter (fun p => decide (p ≠ e)) =
          x :: t.filter (fun p => decide (p ≠ e)) := by
        simp [List.filter_cons, hxe]
      rw [step, favCount_cons, favCount_cons, ih hnt het]
      by_cases hxi : x.2 = i <;> by_cases hei : e.2 = i <;> simp [hxi, hei]
      have : 1 ≤ favCount t i := favCount_pos t e i het hei
      omega

theorem FavoriteBySlug_good (db : DB) (s : String) (uid : Int)
    (h : GoodState db) : GoodState (FavoriteBySlug db s uid).1 := by
  obtain ⟨hn, hinv⟩ := h
  cases hfind : db.articles.find? (fun a => decide (a.slug = s)) with
  | none => simpa [FavoriteBySlug, hfind, GoodState] using ⟨hn, hinv⟩
  | some a =>
    cases hfu : db.users.find? (fun u => decide (u.id = a.authorId)) with
    | none => simpa [FavoriteBySlug, hfind, hfu, GoodState] using ⟨hn, hinv⟩
    | some u =>
      by_cases hmem : (uid, a.id) ∈ db.favorites
      · simpa [FavoriteBySlug, hfind, hfu, hmem, GoodState] using ⟨hn, hinv⟩
      · simp only [FavoriteBySlug, hfind, hfu, hmem, if_neg, not_false_iff]
        refine ⟨List.nodup_cons.mpr ⟨hmem, hn⟩, ?_⟩
        intro x hx
        obtain ⟨y, hy, rfl⟩ := List.mem_map.mp hx
        rw [bumpFav_id, favCount_cons]
        by_cases hyid : y.id = a.id
        · have hcnt := hinv y hy
          have hb : (bumpFav a.id y).favoritesCount = y.favoritesCount + 1 := by
            simp [bumpFav, hyid]
          have hif : ((uid, a.id)).2 = y.id := hyid.symm
          rw [hb, if_pos hif, hcnt]
          omega
        · have hcnt := hinv y hy
          have h1 : bumpFav a.id y = y := by simp [bumpFav, hyid]
          rw [h1]
          have h2 : ¬((uid, a.id).2 = y.id) := fun h => hyid h.symm
          simp only [h2, if_neg]
          exact hcnt

theorem UnfavoriteBySlug_good (db : DB) (s : String) (uid : Int)
    (h : GoodState db) : GoodState (UnfavoriteBySlug db s uid).1 := by
  obtain ⟨hn, hinv⟩ := h
  cases hfind : db.articles.find? (fun a => decide (a.slug = s)) with
  | none => simpa [UnfavoriteBySlug, hfind, GoodState] using ⟨hn, hinv⟩
  | some a =>
    cases hfu : db.users.find? (fun u => decide (u.id = a.authorId)) with
    | none => simpa [UnfavoriteBySlug, hfind, hfu, GoodState] using ⟨hn, hinv⟩
    | some u =>
      by_cases hmem : (uid, a.id) ∈ db.favorites
      · simp only [UnfavoriteBySlug, hfind, hfu, hmem, if_pos]
        refine ⟨hn.filter _, ?_⟩
        intro x hx
        obtain ⟨y, hy, rfl⟩ := List.mem_map.mp hx
        rw [dropFav_id,
          favCount_filter_out db.favorites (uid, a.id) y.id hn hmem]
        by_cases hyid : y.id = a.id
        · have hcnt := hinv y hy
          have hpos : 1 ≤ favCount db.favorites y.id :=
            favCount_pos db.favorites (uid, a.id) y.id hmem hyid.symm
          have hd : (dropFav a.id y).favoritesCount = max (y.favoritesCount - 1) 0 := by
            simp [dropFav, hyid]
          have hif : ((uid, a.id)).2 = y.id := hyid.symm
          rw [hd, if_pos hif, hcnt]
          rw [max_eq_left (by omega)]
          omega
        · have hcnt := hinv y hy
          have h1 : dropFav a.id y = y := by simp [dropFav, hyid]
          rw [h1]
          have h2 : ¬((uid, a.id).2 = y.id) := fun h => hyid h.symm
          simp only [h2, if_neg]
          exact hcnt
      · simpa [UnfavoriteBySlug, hfind, hfu, hmem, GoodState] using ⟨hn, hinv⟩

theorem FavStep_good {d1 d2 : DB} (h : GoodState d1) (hs : FavStep d1 d2) :
    GoodState d2 := by
  cases hs with
  | fav s u => exact FavoriteBySlug_good _ s u h
  | unfav s u => exact UnfavoriteBySlug_good _ s u h

theorem Reach_good {d1 d2 : DB} (h : GoodState d1) (hr : Reach d1 d2) :
    GoodState d2 := by
  induction hr with
  | refl => exact h
  | step _ hs ih => exact FavStep_good ih hs

theorem find?_key_eq {α κ : Type} [DecidableEq κ]
    (l : List α) (key : α → κ) (k : κ) (a : α)
    (hnd : (l.map key).Nodup) (ha : a ∈ l) (hk : key a = k) :
    l.find? (fun x => decide (key x = k)) = some a := by
  induction l with
  | nil => cases ha
  | cons b t ih =>
    have hnd' : (key b :: t.map key).Nodup := by simpa using hnd
    rcases List.nodup_cons.mp hnd' with ⟨hb, hnt⟩
    by_cases hbk : key b = k
    · have hab : b = a := by
        rcases List.mem_cons.mp ha with h | h
        · exact h.symm
        · exfalso
          have hmem : key a ∈ t.map key := List.mem_map_of_mem key h
          rw [hk, ← hbk] at hmem
          exact hb hmem
      rw [List.find?_cons_of_pos _ (by simpa using hbk), hab]
    · have hat : a ∈ t := by
        rcases List.mem_cons.mp ha with h | h
        · exact absurd (h ▸ hk) hbk
        · exact h
      rw [List.find?_cons_of_neg _ (by simpa using hbk)]
      exact ih hnt hat

/-! ## Sample data for concrete instantiations -/

def sampleUser : UserRow :=
  { id := 1, username := "alice", bio := "", image := "" }

def sampleArticle : Article :=
  { id := 10, slug := "intro-abc1234", title := "Intro", description := "d",
    body := "b", tagList := ["go"], createdAt := 100, updatedAt := 100,
    favoritesCount := 0, authorId := 1, version := 1 }

def sampleDB : DB :=
  { articles := [sampleArticle], users := [sampleUser], favorites := [],
    follows := [], tags := ["go"] }

/-! ## Claim theorems -/

/-- C1: for every article, the stored `favoritesCount` always equals the
number of favorite edges referencing it.  `FavoriteBySlug` and
`UnfavoriteBySlug` adjust the counter (+1, or −1 floored at 0) only when
their edge insert/delete actually changed an edge, so every state
reachable through these operations from a state satisfying the invariant
(with the composite-primary-key favorites relation duplicate-free) keeps
`favoritesCount` equal to the edge count and never negative. -/
theorem C1_favoritesCount_invariant (db db' : DB)
    (hn : db.favorites.Nodup) (hinv : CounterInv db) (hr : Reach db db') :
    ∀ a ∈ db'.articles,
      a.favoritesCount = (favCount db'.favorites a.id : Int) ∧
      0 ≤ a.favoritesCount := by
  have hg := Reach_good ⟨hn, hinv⟩ hr
  intro a ha
  refine ⟨hg.2 a ha, ?_⟩
  rw [hg.2 a ha]
  exact Int.natCast_nonneg _

theorem C1_favoritesCount_invariant_witness :
    sampleDB.favorites.Nodup ∧ CounterInv sampleDB ∧
      ∀ a ∈ (FavoriteBySlug sampleDB "intro-abc1234" 2).1.articles,
        a.favoritesCount =
          (favCount (FavoriteBySlug sampleDB "intro-abc1234" 2).1.favorites a.id : Int) ∧
        0 ≤ a.favoritesCount :=
  ⟨by decide, by unfold CounterInv favCount; decide,
   C1_favoritesCount_invariant sampleDB _ (by decide)
     (by unfold CounterInv favCount; decide)
     (Reach.step (Reach.refl sampleDB) (FavStep.fav "intro-abc1234" 2 sampleDB))⟩

def favDB : DB :=
  { sampleDB with favorites := [(2, 10)] }

/-- C2: `FavoriteBySlug` and `UnfavoriteBySlug` are idempotent: on an
existing slug, favoriting an already-favorited article or unfavoriting an
already-unfavorited one succeeds and returns the current state unchanged;
and favoriting the same article twice by the same user produces the same
state as favoriting it once, leaving `favoritesCount` incremented exactly
once overall. -/
theorem C2_favorite_unfavorite_idempotent (db : DB) (s : String) (uid : Int)
    (a : Article) (u : UserRow)
    (hslugs : (db.articles.map Article.slug).Nodup)
    (hids : (db.articles.map Article.id).Nodup)
    (huids : (db.users.map UserRow.id).Nodup)
    (ha : a ∈ db.articles) (hs : a.slug = s)
    (hu : u ∈ db.users) (hui : u.id = a.authorId) :
    ((uid, a.id) ∈ db.favorites →
      FavoriteBySlug db s uid =
        (db, .ok (outOf a u true (decide ((uid, a.authorId) ∈ db.follows))))) ∧
    ((uid, a.id) ∉ db.favorites →
      UnfavoriteBySlug db s uid =
        (db, .ok (outOf a u false (decide ((uid, a.authorId) ∈ db.follows))))) ∧
    (FavoriteBySlug (FavoriteBySlug db s uid).1 s uid).1 =
      (FavoriteBySlug db s uid).1 ∧
    ((uid, a.id) ∉ db.favorites →
      ∀ x ∈ (FavoriteBySlug (FavoriteBySlug db s uid).1 s uid).1.articles,
        x.id = a.id → x.favoritesCount = a.favoritesCount + 1) := by
  have hfind := find?_key_eq db.articles Article.slug s a hslugs ha hs
  have hfu := find?_key_eq db.users UserRow.id a.authorId u huids hu hui
  have honce_mem : ∀ hm : (uid, a.id) ∈ db.favorites,
      FavoriteBySlug db s uid =
        (db, .ok (outOf a u true (decide ((uid, a.authorId) ∈ db.follows)))) := by
    intro hm
    simp [FavoriteBySlug, hfind, hfu, hm]
  have honce_new : ∀ _hm : (uid, a.id) ∉ db.favorites,
      FavoriteBySlug db s uid =
        ({ db with favorites := (uid, a.id) :: db.favorites,
                   articles := db.articles.map (bumpFav a.id) },
         .ok (outOf (bumpFav a.id a) u true
                (decide ((uid, a.authorId) ∈ db.follows)))) := by
    intro hm
    simp [FavoriteBySlug, hfind, hfu, hm]
  have hsecond : (FavoriteBySlug (FavoriteBySlug db s uid).1 s uid).1 =
      (FavoriteBySlug db s uid).1 := by
    by_cases hm : (uid, a.id) ∈ db.favorites
    · rw [honce_mem hm, honce_mem hm]
    · rw [honce_new hm]
      have hcomp : ((fun x : Article => decide (Article.slug x = s)) ∘ bumpFav a.id) =
          fun x : Article => decide (Article.slug x = s) := by
        funext x
        simp [bumpFav_slug]
      have hfind2 : (db.articles.map (bumpFav a.id)).find?
          (fun x => decide (Article.slug x = s)) = some (bumpFav a.id a) := by
        rw [List.find?_map, hcomp, hfind]
        rfl
      have hmem2 : (uid, (bumpFav a.id a).id) ∈ (uid, a.id) :: db.favorites := by
        rw [bumpFav_id]
        exact List.mem_cons_self _ _
      simp [FavoriteBySlug, hfind2, bumpFav_authorId, hfu, hmem2]
  refine ⟨honce_mem, ?_, hsecond, ?_⟩
  · intro hm
    simp [UnfavoriteBySlug, hfind, hfu, hm]
  · intro hm x hx hxid
    rw [hsecond, honce_new hm] at hx
    obtain ⟨y, hy, rfl⟩ := List.mem_map.mp hx
    rw [bumpFav_id] at hxid
    have hya : y = a := List.inj_on_of_nodup_map hids hy ha hxid
    subst hya
    simp [bumpFav, hxid]

theorem C2_favorite_unfavorite_idempotent_witness :
    FavoriteBySlug favDB "intro-abc1234" 2 =
      (favDB, .ok (outOf sampleArticle sampleUser true
        (decide ((2, sampleArticle.authorId) ∈ favDB.follows)))) ∧
    UnfavoriteBySlug sampleDB "intro-abc1234" 2 =
      (sampleDB, .ok (outOf sampleArticle sampleUser false
        (decide ((2, sampleArticle.authorId) ∈ sampleDB.follows)))) ∧
    (FavoriteBySlug (FavoriteBySlug sampleDB "intro-abc1234" 2).1 "intro-abc1234" 2).1 =
      (FavoriteBySlug sampleDB "intro-abc1234" 2).1 :=
  ⟨(C2_favorite_unfavorite_idempotent favDB "intro-abc1234" 2 sampleArticle sampleUser
      (by decide) (by decide) (by decide) (by decide) (by decide) (by decide)
      (by decide)).1 (by decide),
   (C2_favorite_unfavorite_idempotent sampleDB "intro-abc1234" 2 sampleArticle sampleUser
      (by decide) (by decide) (by decide) (by decide) (by decide) (by decide)
      (by decide)).2.1 (by decide),
   (C2_favorite_unfavorite_idempotent sampleDB "intro-abc1234" 2 sampleArticle sampleUser
      (by decide) (by decide) (by decide) (by decide) (by decide) (by decide)
      (by decide)).2.2.1⟩

theorem applyUpd_of_match (art : Article) (now : Int) (a : Article)
    (hid : a.id = art.id) (hv : a.version = art.version) :
    applyUpd art now a =
      { a with title := art.title, description := art.description,
               body := art.body, slug := art.slug, updatedAt := now,
               version := a.version + 1 } := by
  unfold applyUpd
  rw [if_pos ⟨hid, hv⟩]

theorem applyUpd_of_other_id (art : Article) (now : Int) (a : Article)
    (hid : a.id ≠ art.id) : applyUpd art now a = a := by
  unfold applyUpd
  rw [if_neg (fun hc => hid hc.1)]

theorem Update_no_match (db : DB) (art : Article) (now : Int)
    (h : ∀ b ∈ db.articles, ¬(b.id = art.id ∧ b.version = art.version)) :
    Update db art now = (db, .error .editConflict) := by
  have hfind : db.articles.find?
      (fun a => decide (a.id = art.id ∧ a.version = art.version)) = none :=
    List.find?_eq_none.mpr (fun x hx => by simpa using h x hx)
  simp only [Update, hfind]

/-- C3: `Update` conditions its write on the caller-supplied
`(id, version)` pair.  When a stored row carries both, the call succeeds,
the row's version increments by one and its `updatedAt` refreshes to the
statement's `now`, while rows with other ids are untouched; when no stored
row matches the pair, the call fails with `EditConflict` and the database
is left unchanged. -/
theorem C3_update_optimistic_concurrency (db : DB) (art : Article)
    (now : Int) (a : Article) :
    (a ∈ db.articles → a.id = art.id → a.version = art.version →
      (Update db art now).2 = .ok (now, art.version + 1) ∧
      { a with title := art.title, description := art.description,
               body := art.body, slug := art.slug, updatedAt := now,
               version := a.version + 1 } ∈ (Update db art now).1.articles ∧
      ∀ b ∈ db.articles, b.id ≠ art.id → b ∈ (Update db art now).1.articles) ∧
    ((∀ b ∈ db.articles, b.id = art.id → b.version ≠ art.version) →
      Update db art now = (db, .error .editConflict)) := by
  constructor
  · intro ha hid hv
    have hsome : ∃ c, db.articles.find?
        (fun x => decide (x.id = art.id ∧ x.version = art.version)) = some c := by
      cases hf : db.articles.find?
          (fun x => decide (x.id = art.id ∧ x.version = art.version)) with
      | none =>
        exact absurd (by simpa using List.find?_eq_none.mp hf a ha) (by simp [hid, hv])
      | some c => exact ⟨c, rfl⟩
    obtain ⟨c, hc⟩ := hsome
    refine ⟨by simp only [Update, hc], ?_, ?_⟩
    · have hm := List.mem_map_of_mem (applyUpd art now) ha
      rw [applyUpd_of_match art now a hid hv] at hm
      simp only [Update, hc]
      exact hm
    · intro b hb hbid
      have hm := List.mem_map_of_mem (applyUpd art now) hb
      rw [applyUpd_of_other_id art now b hbid] at hm
      simp only [Update, hc]
      exact hm
  · intro h
    exact Update_no_match db art now (fun b hb hc => h b hb hc.1 hc.2)

def updArt : Article :=
  { sampleArticle with title := "New Title" }

theorem C3_update_optimistic_concurrency_witness :
    (Update sampleDB updArt 200).2 = .ok (200, updArt.version + 1) ∧
    ({ sampleArticle with
       title := updArt.title,
       description := updArt.description,
       body := updArt.body,
       slug := updArt.slug,
       updatedAt := 200,
       version := sampleArticle.version + 1 } : Article)
      ∈ (Update sampleDB updArt 200).1.articles ∧
    Update sampleDB { updArt with version := 99 } 200 =
      (sampleDB, .error .editConflict) :=
  ⟨((C3_update_optimistic_concurrency sampleDB updArt 200 sampleArticle).1
      (by decide) (by decide) (by decide)).1,
   ((C3_update_optimistic_concurrency sampleDB updArt 200 sampleArticle).1
      (by decide) (by decide) (by decide)).2.1,
   (C3_update_optimistic_concurrency sampleDB { updArt with version := 99 }
      200 sampleArticle).2 (by decide)⟩

/-- C10: calling `Update` with an article id that matches no stored row at
all is reported as `EditConflict`, never as `NotFound`: every
`(id, version)` non-match — including total absence of the row — takes the
`pgx.ErrNoRows` path that is mapped to `ErrEditConflict`. -/
theorem C10_update_missing_row_edit_conflict (db : DB) (art : Article)
    (now : Int) (h : ∀ b ∈ db.articles, b.id ≠ art.id) :
    Update db art now = (db, .error .editConflict) ∧
    (Update db art now).2 ≠ .error .recordNotFound := by
  have hu := Update_no_match db art now (fun b hb hc => h b hb hc.1)
  refine ⟨hu, ?_⟩
  rw [hu]
  simp

theorem C10_update_missing_row_edit_conflict_witness :
    Update sampleDB { updArt with id := 999 } 200 =
      (sampleDB, .error .editConflict) ∧
    (Update sampleDB { updArt with id := 999 } 200).2 ≠
      .error .recordNotFound :=
  C10_update_missing_row_edit_conflict sampleDB { updArt with id := 999 } 200
    (by decide)

/-- C8: `DeleteBySlug` deletes an article only when the row's author
equals the supplied `authorId`, and in both failure cases — no row with
that slug at all, or the row owned by a different user — it fails with the
same `NotFound` error and leaves the database untouched, so ownership
mismatch and nonexistence are indistinguishable to the caller. -/
theorem C8_delete_owner_or_not_found (db : DB) (s : String) (aid : Int) :
    ((∃ a ∈ db.articles, a.slug = s ∧ a.authorId = aid) →
      (DeleteBySlug db s aid).2 = .ok () ∧
      (DeleteBySlug db s aid).1.articles =
        db.articles.filter (fun a => !decide (a.slug = s ∧ a.authorId = aid))) ∧
    ((∀ a ∈ db.articles, a.slug ≠ s) →
      DeleteBySlug db s aid = (db, .error .recordNotFound)) ∧
    ((∀ a ∈ db.articles, a.slug = s → a.authorId ≠ aid) →
      DeleteBySlug db s aid = (db, .error .recordNotFound)) := by
  refine ⟨?_, ?_, ?_⟩
  · rintro ⟨a, ha, hs, haid⟩
    have hmem : a ∈ db.articles.filter
        (fun x => decide (x.slug = s ∧ x.authorId = aid)) :=
      List.mem_filter.mpr ⟨ha, by simp [hs, haid]⟩
    have hne : (db.articles.filter
        (fun x => decide (x.slug = s ∧ x.authorId = aid))).isEmpty = false := by
      cases hfil : db.articles.filter
          (fun x => decide (x.slug = s ∧ x.authorId = aid)) with
      | nil => rw [hfil] at hmem; cases hmem
      | cons b t => rfl
    constructor <;> simp only [DeleteBySlug, hne, Bool.false_eq_true, if_neg,
      not_false_iff]
  · intro h
    have hfil : db.articles.filter
        (fun x => decide (x.slug = s ∧ x.authorId = aid)) = [] :=
      List.filter_eq_nil_iff.mpr (fun x hx => by simpa using fun hc _ => h x hx hc)
    simp only [DeleteBySlug, hfil, List.isEmpty_nil, if_pos]
  · intro h
    have hfil : db.articles.filter
        (fun x => decide (x.slug = s ∧ x.authorId = aid)) = [] :=
      List.filter_eq_nil_iff.mpr (fun x hx => by simpa using fun hc => h x hx hc)
    simp only [DeleteBySlug, hfil, List.isEmpty_nil, if_pos]

theorem C8_delete_owner_or_not_found_witness :
    (DeleteBySlug sampleDB "intro-abc1234" 1).2 = .ok () ∧
    DeleteBySlug sampleDB "missing" 1 = (sampleDB, .error .recordNotFound) ∧
    DeleteBySlug sampleDB "intro-abc1234" 2 = (sampleDB, .error .recordNotFound) :=
  ⟨((C8_delete_owner_or_not_found sampleDB "intro-abc1234" 1).1
      ⟨sampleArticle, by decide, by decide, by decide⟩).1,
   (C8_delete_owner_or_not_found sampleDB "missing" 1).2.1 (by decide),
   (C8_delete_owner_or_not_found sampleDB "intro-abc1234" 2).2.2 (by decide)⟩

/-- A cached user whose password hash backing array lives at address 0
and currently holds the bytes `[1, 2, 3]`. -/
def c9user : GoUser :=
  { id := 7, username := "alice", email := "alice@example.com",
    passwordPlaintext := none, passwordHash := 0, image := "", bio := "",
    token := "", version := 1 }

def c9heap : Heap := fun a => if a = 0 then [1, 2, 3] else []

def c9cache : CacheState := UserCacheSet [] 7 c9user

/-- C9 (refuted — the code shares the hash backing array): `UserCache.Get`
and `Set` copy only the struct (`userCopy := *user`), so the returned
object's `Password.hash` slice header points at the same backing array as
the cached entry.  Writing one byte through the object returned by `Get`
changes the hash bytes every later `Get` observes: with the entry's hash
at `[1, 2, 3]`, after `got.Password.hash[0] = 9` a later `Get` reads
`[9, 2, 3]`. -/
theorem C9_cache_copy_shares_hash_array :
    UserCacheGet c9cache 7 = some c9user ∧
    hashBytes c9heap c9user = [1, 2, 3] ∧
    (UserCacheGet c9cache 7).map
        (hashBytes (Heap.writeByte c9heap c9user.passwordHash 0 9)) =
      some [9, 2, 3] ∧
    (UserCacheGet c9cache 7).map
        (hashBytes (Heap.writeByte c9heap c9user.passwordHash 0 9)) ≠
      (UserCacheGet c9cache 7).map (hashBytes c9heap) := by
  refine ⟨by decide, rfl, ?_, ?_⟩ <;> decide

/-- C6: when the `feed` filter is set and the current viewer is anonymous
(a nil `currentUser` or the `AnonymousUser` sentinel), `List` returns an
empty article list with `totalCount` 0 and issues no query against the
backing store, whatever the database holds. -/
theorem C6_anonymous_feed_empty (db : DB) (f : ArticleFilters)
    (viewer : Viewer) (ord : List (Article × UserRow))
    (hf : f.feed = true) (hv : viewer = .nil ∨ viewer = .anonymous) :
    listArticles db f viewer ord =
      { articles := [], totalCount := 0, queried := false } := by
  have hid : viewer.effectiveId = -1 := by
    rcases hv with h | h <;> subst h <;> rfl
  simp [listArticles, hf, hid]

def feedFilters : ArticleFilters :=
  { tag := "", author := "", favorited := "", feed := true,
    limit := 20, offset := 0 }

theorem C6_anonymous_feed_empty_witness :
    listArticles sampleDB feedFilters .anonymous [(sampleArticle, sampleUser)] =
      { articles := [], totalCount := 0, queried := false } :=
  C6_anonymous_feed_empty sampleDB feedFilters .anonymous
    [(sampleArticle, sampleUser)] (by decide) (Or.inr rfl)

theorem mkOut_authorId (db : DB) (v : Viewer) (uid : Int)
    (p : Article × UserRow) : (mkOut db v uid p).authorId = p.1.authorId := rfl

theorem mkOut_following_user (db : DB) (u : UserRow) (uid : Int)
    (p : Article × UserRow) :
    (mkOut db (.user u) uid p).author.following =
      (if p.1.authorId = u.id then false
       else decide ((uid, p.1.authorId) ∈ db.follows)) := rfl

/-- C7: every row `List` returns to a real viewer carries
`following = false` whenever the row's author is that viewer, even when a
stray self-follow edge `(viewer, viewer)` sits in the follows relation:
the row loop forces `following` to `false` when
`article.AuthorID == currentUser.ID`. -/
theorem C7_own_articles_never_following (db : DB) (f : ArticleFilters)
    (u : UserRow) (ord : List (Article × UserRow)) (out : ArticleOut)
    (hout : out ∈ (listArticles db f (.user u) ord).articles)
    (hown : out.authorId = u.id) :
    out.author.following = false := by
  unfold listArticles at hout
  by_cases hcond : f.feed ∧ Viewer.effectiveId (.user u) = -1
  · rw [if_pos hcond] at hout
    cases hout
  · rw [if_neg hcond] at hout
    obtain ⟨p, _, rfl⟩ := List.mem_map.mp hout
    rw [mkOut_authorId] at hown
    rw [mkOut_following_user, if_pos hown]

def c7db : DB :=
  { sampleDB with follows := [(1, 1)] }

def c7filters : ArticleFilters :=
  { tag := "", author := "", favorited := "", feed := false,
    limit := 20, offset := 0 }

theorem C7_own_articles_never_following_witness :
    mkOut c7db (.user sampleUser) 1 (sampleArticle, sampleUser) ∈
      (listArticles c7db c7filters (.user sampleUser)
        [(sampleArticle, sampleUser)]).articles ∧
    (mkOut c7db (.user sampleUser) 1 (sampleArticle, sampleUser)).authorId =
      sampleUser.id ∧
    (1, 1) ∈ c7db.follows ∧
    (mkOut c7db (.user sampleUser) 1 (sampleArticle, sampleUser)).author.following =
      false :=
  ⟨by decide, by decide, by decide,
   C7_own_articles_never_following c7db c7filters sampleUser
     [(sampleArticle, sampleUser)]
     (mkOut c7db (.user sampleUser) 1 (sampleArticle, sampleUser))
     (by decide) (by decide)⟩

/-- C5 (amended): whenever the returned page is non-empty, the
`totalCount` `List` returns equals the number of articles matching the
filters irrespective of `limit` and `offset` — it is read from the
`COUNT(*) OVER()` window column computed in the same query pass as the
page.  When the page is empty (offset past the end, zero limit, or the
anonymous-feed early return) the row loop never runs and `totalCount`
stays `0` rather than the filtered count. -/
theorem C5_totalCount_full_filtered_set (db : DB) (f : ArticleFilters)
    (viewer : Viewer) (ord : List (Article × UserRow))
    (h : Admissible db f viewer.effectiveId ord) :
    ((listArticles db f viewer ord).articles ≠ [] →
      (listArticles db f viewer ord).totalCount =
        (joinRows db f viewer.effectiveId).length) ∧
    ((listArticles db f viewer ord).articles = [] →
      (listArticles db f viewer ord).totalCount = 0) := by
  unfold listArticles
  by_cases hc : f.feed ∧ viewer.effectiveId = -1
  · rw [if_pos hc]
    exact ⟨fun hne => absurd rfl hne, fun _ => rfl⟩
  · rw [if_neg hc]
    simp only
    constructor
    · intro hne
      have hie : (((ord.drop f.offset).take f.limit).map
          (mkOut db viewer viewer.effectiveId)).isEmpty = false := by
        cases hlist : ((ord.drop f.offset).take f.limit).map
            (mkOut db viewer viewer.effectiveId) with
        | nil => exact absurd hlist hne
        | cons x xs => rfl
      rw [hie]
      simpa using h.1.length_eq
    · intro hemp
      rw [hemp]
      rfl

def c5filters : ArticleFilters :=
  { tag := "", author := "", favorited := "", feed := false,
    limit := 5, offset := 5 }

/-- C5 counterexample: with one stored article matching the (empty)
filters, a request for `limit = 5, offset = 5` — a page past the end —
returns `totalCount = 0` although the filtered set has one article, so
`totalCount` does *not* reflect the full filtered set irrespective of
`limit`/`offset`. -/
theorem C5_totalCount_counterexample :
    Admissible sampleDB c5filters (Viewer.nil).effectiveId
      [(sampleArticle, sampleUser)] ∧
    (listArticles sampleDB c5filters .nil
      [(sampleArticle, sampleUser)]).articles = [] ∧
    (listArticles sampleDB c5filters .nil
      [(sampleArticle, sampleUser)]).totalCount = 0 ∧
    (joinRows sampleDB c5filters (Viewer.nil).effectiveId).length = 1 := by
  refine ⟨⟨?_, ?_⟩, ?_, ?_, ?_⟩ <;> decide

theorem C5_totalCount_full_filtered_set_witness :
    (listArticles sampleDB c7filters .nil
        [(sampleArticle, sampleUser)]).totalCount =
      (joinRows sampleDB c7filters (Viewer.nil).effectiveId).length :=
  (C5_totalCount_full_filtered_set sampleDB c7filters .nil
    [(sampleArticle, sampleUser)] ⟨by decide, by decide⟩).1 (by decide)

theorem sorted_perm_eq_of_nodup_key {α : Type} (key : α → Int) :
    ∀ {l₁ l₂ : List α}, l₁.Perm l₂ →
      l₁.Sorted (fun a b => key b ≤ key a) →
      l₂.Sorted (fun a b => key b ≤ key a) →
      (l₁.map key).Nodup → l₁ = l₂ := by
  intro l₁
  induction l₁ with
  | nil =>
    intro l₂ hp _ _ _
    exact List.Perm.nil_eq hp
  | cons a t ih =>
    intro l₂ hp hs₁ hs₂ hnd
    cases l₂ with
    | nil => exact absurd hp.symm (by simp)
    | cons b t₂ =>
      rcases List.nodup_cons.mp (by simpa using hnd : (key a :: t.map key).Nodup)
        with ⟨hka, hndt⟩
      have hab : a = b := by
        by_contra hne
        have hat₂ : a ∈ t₂ := by
          rcases List.mem_cons.mp (hp.mem_iff.mp (List.mem_cons_self a t)) with h | h
          · exact absurd h hne
          · exact h
        have hbt : b ∈ t := by
          rcases List.mem_cons.mp (hp.mem_iff.mpr (List.mem_cons_self b t₂)) with h | h
          · exact absurd h.symm hne
          · exact h
        have h1 : key a ≤ key b := ((List.sorted_cons.mp hs₂).1 a hat₂)
        have h2 : key b ≤ key a := ((List.sorted_cons.mp hs₁).1 b hbt)
        have hkey : key a = key b := le_antisymm h1 h2
        exact hka (hkey ▸ List.mem_map_of_mem key hbt)
      subst hab
      have ht := ih (hp.cons_inv) (List.sorted_cons.mp hs₁).2
        (List.sorted_cons.mp hs₂).2 hndt
      rw [ht]

/-- Modelled from the spec's words (claim C4): the claimed deterministic
ordering — newest `createdAt` first, falling back to *descending id* for
rows with equal timestamps.  The code's query orders by
`a.created_at DESC` alone, so this is the comparison the claim asserts,
stated for refutation against `Admissible`. -/
def SortedByCreatedThenIdDesc (ord : List (Article × UserRow)) : Prop :=
  ord.Sorted (fun p q =>
    q.1.createdAt < p.1.createdAt ∨
    (q.1.createdAt = p.1.createdAt ∧ q.1.id ≤ p.1.id))

/-- C4 (amended): `List` orders results newest-created-first with *no*
tie-break column.  When the matching rows carry pairwise-distinct
`createdAt` timestamps the admissible order is uniquely determined, so
paginating with `limit`/`offset` over a fixed set of articles never
duplicates and never skips a row across page boundaries; with equal
timestamps the intra-tie order is left to the backend (see the
counterexample). -/
theorem C4_pagination_distinct_timestamps (db : DB) (f : ArticleFilters)
    (viewer : Viewer) (ord₁ ord₂ : List (Article × UserRow)) (k : Nat)
    (hq : ¬(f.feed = true ∧ viewer.effectiveId = -1))
    (h₁ : Admissible db f viewer.effectiveId ord₁)
    (h₂ : Admissible db f viewer.effectiveId ord₂)
    (hts : ((joinRows db f viewer.effectiveId).map
      (fun p => p.1.createdAt)).Nodup) :
    ord₁ = ord₂ ∧
    (listArticles db { f with limit := k, offset := 0 } viewer ord₁).articles ++
      (listArticles db { f with limit := ord₂.length, offset := k }
        viewer ord₂).articles =
      ord₁.map (mkOut db viewer viewer.effectiveId) := by
  have hnd₁ : (ord₁.map (fun p => p.1.createdAt)).Nodup :=
    ((h₁.1.map (fun p => p.1.createdAt)).nodup_iff).mpr hts
  have heq : ord₁ = ord₂ :=
    sorted_perm_eq_of_nodup_key (fun p => p.1.createdAt)
      (h₁.1.trans h₂.1.symm) h₁.2 h₂.2 hnd₁
  subst heq
  refine ⟨rfl, ?_⟩
  have hq' : ¬(f.feed = true ∧ viewer.effectiveId = -1) := hq
  unfold listArticles
  rw [if_neg hq', if_neg hq']
  simp only
  rw [List.drop_zero]
  rw [show (List.drop k ord₁).take ord₁.length = List.drop k ord₁ from
    List.take_of_length_le (by rw [List.length_drop]; omega)]
  rw [← List.map_append, List.take_append_drop]

def c4a1 : Article :=
  { id := 1, slug := "one-aaaaaaa", title := "One", description := "d",
    body := "b", tagList := [], createdAt := 100, updatedAt := 100,
    favoritesCount := 0, authorId := 1, version := 1 }

def c4a2 : Article :=
  { c4a1 with id := 2, slug := "two-bbbbbbb", title := "Two" }

def c4db : DB :=
  { articles := [c4a1, c4a2], users := [sampleUser], favorites := [],
    follows := [], tags := [] }

def c4filters : ArticleFilters :=
  { tag := "", author := "", favorited := "", feed := false,
    limit := 1, offset := 0 }

/-- C4 counterexample: with two articles sharing `createdAt = 100`, both
tie orders are admissible for the query's lone `ORDER BY a.created_at
DESC` clause; one of them violates the claimed descending-id tie-break,
and answering page `limit=1,offset=0` with one admissible order and page
`limit=1,offset=1` with the other returns the same article on both pages
while the second article never appears — pagination duplicates and skips.
-/
theorem C4_pagination_counterexample :
    Admissible c4db c4filters (Viewer.nil).effectiveId
      [(c4a1, sampleUser), (c4a2, sampleUser)] ∧
    Admissible c4db c4filters (Viewer.nil).effectiveId
      [(c4a2, sampleUser), (c4a1, sampleUser)] ∧
    ¬ SortedByCreatedThenIdDesc [(c4a1, sampleUser), (c4a2, sampleUser)] ∧
    (listArticles c4db c4filters .nil
        [(c4a1, sampleUser), (c4a2, sampleUser)]).articles =
      [mkOut c4db .nil (-1) (c4a1, sampleUser)] ∧
    (listArticles c4db { c4filters with offset := 1 } .nil
        [(c4a2, sampleUser), (c4a1, sampleUser)]).articles =
      [mkOut c4db .nil (-1) (c4a1, sampleUser)] ∧
    mkOut c4db .nil (-1) (c4a2, sampleUser) ∉
      ((listArticles c4db c4filters .nil
          [(c4a1, sampleUser), (c4a2, sampleUser)]).articles ++
        (listArticles c4db { c4filters with offset := 1 } .nil
          [(c4a2, sampleUser), (c4a1, sampleUser)]).articles) := by
  refine ⟨⟨?_, ?_⟩, ⟨?_, ?_⟩, ?_, ?_, ?_, ?_⟩ <;> first
    | decide
    | (intro h; revert h; unfold SortedByCreatedThenIdDesc; decide)

theorem C4_pagination_distinct_timestamps_witness :
    [(sampleArticle, sampleUser)] = [(sampleArticle, sampleUser)] ∧
    (listArticles sampleDB { c4filters with limit := 1, offset := 0 } .nil
        [(sampleArticle, sampleUser)]).articles ++
      (listArticles sampleDB { c4filters with limit := 1, offset := 1 } .nil
        [(sampleArticle, sampleUser)]).articles =
      ([(sampleArticle, sampleUser)]).map
        (mkOut sampleDB .nil (Viewer.nil).effectiveId) :=
  C4_pagination_distinct_timestamps sampleDB c4filters .nil
    [(sampleArticle, sampleUser)] [(sampleArticle, sampleUser)] 1
    (by decide) ⟨by decide, by decide⟩ ⟨by decide, by decide⟩ (by decide)

end RealWorld
